import Mathlib

/-!
Shallow embedding of the Golia HTML document builder (`golia.py`) and of its
HTML-to-builder-code transpiler (`derender.py`), with theorems settling the
specification claims about attribute normalization, rendering, tree
construction, the transpiler's section scan, and document scoping.

Python strings are modelled as Lean `String`, Python ordered `dict`s as
ordered association lists (`List (String × _)`) with an insert operation that
updates an existing key in place and appends a fresh key at the end, matching
CPython's insertion-ordered dictionaries.
-/

/-- Model of the Python attribute values distinguished by the builder's
attribute handling: the boolean `True` sentinel, `None` (the internal marker
for a bare boolean attribute), and strings. -/
inductive AVal where
  | vTrue
  | vNone
  | vStr (s : String)
deriving DecidableEq

/-- Rendering of an attribute value inside `key="value"`, as Python's f-string
interpolation would print it (`True` prints as `True`). -/
def avalText : AVal → String
  | .vTrue => "True"
  | .vNone => "None"
  | .vStr s => s

/-- Insertion into an insertion-ordered dictionary represented as an
association list: an existing key keeps its position and gets the new value,
a fresh key is appended at the end.  This is CPython `d[k] = v`. -/
def dictInsert {α : Type} (l : List (String × α)) (k : String) (v : α) : List (String × α) :=
  if l.any (fun p => p.1 = k) then l.map (fun p => if p.1 = k then (k, v) else p)
  else l ++ [(k, v)]

/-- The fixed void-element set of `HTMLNode.VOID_ELEMENTS` in `golia.py`. -/
def VOID_ELEMENTS : List String :=
  ["meta", "img", "br", "hr", "input", "link", "area", "base", "col",
   "embed", "param", "source", "track", "wbr", "command", "keygen", "menuitem"]

/-- The fixed inline-by-default set of `HTMLNode.INLINE_ELEMENTS` in `golia.py`. -/
def INLINE_ELEMENTS : List String :=
  ["span", "a", "strong", "em", "code", "small", "b", "i", "u", "mark",
   "sub", "sup", "time", "data", "label", "abbr", "cite", "q", "samp",
   "var", "kbd", "s", "del", "ins"]

/-- Key cleanup of `HTMLNode._convert_attributes`: drop one trailing
underscore (`key[:-1] if key.endswith('_') else key`), then turn every
remaining underscore into a hyphen (`new_key.replace('_', '-')`).
Both Python operations are characterwise, so they are modelled on `List Char`. -/
def convertKeyL (l : List Char) : List Char :=
  (if l.getLast? = some '_' then l.dropLast else l).map (fun c => if c = '_' then '-' else c)

/-- String version of `convertKeyL`. -/
def convertKey (k : String) : String := String.mk (convertKeyL k.data)

/-- One iteration of the `for key, value in self.attr.items()` loop of
`HTMLNode._convert_attributes`: the `klass` surrogate maps to `class`
verbatim (skipping all further handling), otherwise the key is cleaned and a
`True` value is replaced by the bare-attribute marker `None`. -/
def convertStep (acc : List (String × AVal)) (p : String × AVal) : List (String × AVal) :=
  if p.1 = "klass" then dictInsert acc "class" p.2
  else if p.2 = AVal.vTrue then dictInsert acc (convertKey p.1) AVal.vNone
  else dictInsert acc (convertKey p.1) p.2

/-- The special `meta`-tag fixup of `HTMLNode._convert_attributes`: on a
`meta` tag, a `content` entry whose value is still the `True` sentinel is
replaced by the empty string. -/
def metaAdjust (tag : Option String) (c : List (String × AVal)) : List (String × AVal) :=
  if tag = some "meta" ∧ c.any (fun p => p.1 = "content" ∧ p.2 = AVal.vTrue) then
    c.map (fun p => if p.1 = "content" then ("content", AVal.vStr "") else p)
  else c

/-- The ordered key/value pairs (`converted`) built by
`HTMLNode._convert_attributes` for a node with the given tag. -/
def convertPairs (tag : Option String) (m : List (String × AVal)) : List (String × AVal) :=
  metaAdjust tag (m.foldl convertStep [])

/-- One output token of `HTMLNode._convert_attributes`: a bare key for the
`None` marker, otherwise `key="value"`. -/
def attrToken (p : String × AVal) : String :=
  match p.2 with
  | .vNone => p.1
  | v => p.1 ++ "=\"" ++ avalText v ++ "\""

/-- The ordered output tokens (`attr_parts`) of `HTMLNode._convert_attributes`. -/
def attrTokens (tag : Option String) (m : List (String × AVal)) : List String :=
  (convertPairs tag m).map attrToken

/-- Python `''.join` over a list of strings. -/
def joinAll : List String → String
  | [] => ""
  | x :: rest => x ++ joinAll rest

/-- Python `sep.join` over a list of strings. -/
def joinSep (sep : String) : List String → String
  | [] => ""
  | [x] => x
  | x :: y :: rest => x ++ sep ++ joinSep sep (y :: rest)

/-- The attribute string returned by `HTMLNode._convert_attributes`:
the space-joined tokens (the empty list joins to the empty string, matching
the `if attr_parts else ''` fallback). -/
def convertAttrString (tag : Option String) (m : List (String × AVal)) : String :=
  joinSep " " (attrTokens tag m)

/-! ### Claim C1: idempotence of attribute normalization -/

/-- Raw-mapping side condition under which normalization is idempotent:
the `klass` surrogate key does not carry the boolean-true sentinel, and no
other key normalizes to the literal name `klass`. -/
abbrev rawOk (p : String × AVal) : Prop :=
  (p.1 = "klass" → p.2 ≠ AVal.vTrue) ∧ (p.1 ≠ "klass" → convertKey p.1 ≠ "klass")

/-- A pair already in normalized form: its key is a fixed point of the key
cleanup, is not the `klass` surrogate, and its value is not the `True`
sentinel. -/
def normPair (p : String × AVal) : Prop :=
  convertKey p.1 = p.1 ∧ p.1 ≠ "klass" ∧ p.2 ≠ AVal.vTrue

theorem dictInsert_mem {α : Type} {l : List (String × α)} {k : String} {v : α} :
    ∀ q ∈ dictInsert l k v, q ∈ l ∨ q = (k, v) := by
  intro q hq
  unfold dictInsert at hq
  split at hq
  · obtain ⟨p, hp, hfq⟩ := List.mem_map.mp hq
    by_cases h : p.1 = k
    · rw [if_pos h] at hfq
      right; exact hfq.symm
    · rw [if_neg h] at hfq
      left; exact hfq ▸ hp
  · rcases List.mem_append.mp hq with h | h
    · left; exact h
    · right; simpa using h

theorem dictInsert_not_mem {α : Type} {l : List (String × α)} {k : String} {v : α}
    (h : k ∉ l.map Prod.fst) : dictInsert l k v = l ++ [(k, v)] := by
  unfold dictInsert
  rw [if_neg]
  intro hc
  obtain ⟨p, hp, he⟩ := List.any_eq_true.mp hc
  exact h (List.mem_map.mpr ⟨p, hp, of_decide_eq_true he⟩)

theorem dictInsert_nodup {α : Type} {l : List (String × α)} {k : String} {v : α}
    (h : (l.map Prod.fst).Nodup) : ((dictInsert l k v).map Prod.fst).Nodup := by
  unfold dictInsert
  split
  · have heq : (l.map (fun p => if p.1 = k then (k, v) else p)).map Prod.fst = l.map Prod.fst := by
      rw [List.map_map]
      apply List.map_congr_left
      intro p _
      by_cases hp : p.1 = k
      · simp [hp]
      · simp [hp]
    rw [heq]; exact h
  · rename_i hany
    have hk : k ∉ l.map Prod.fst := by
      intro hmem
      obtain ⟨p, hp, hpe⟩ := List.mem_map.mp hmem
      exact hany (List.any_eq_true.mpr ⟨p, hp, decide_eq_true hpe⟩)
    rw [List.map_append]
    simp only [List.map_cons, List.map_nil]
    rw [List.nodup_append]
    exact ⟨h, List.nodup_singleton k, by simpa using hk⟩

theorem underscore_not_mem_convertKeyL (l : List Char) : '_' ∉ convertKeyL l := by
  unfold convertKeyL
  intro h
  obtain ⟨c, _, hc⟩ := List.mem_map.mp h
  by_cases h' : c = '_'
  · rw [if_pos h'] at hc
    exact absurd hc (by decide)
  · rw [if_neg h'] at hc
    exact h' hc

theorem convertKeyL_fixed {l : List Char} (h : '_' ∉ l) : convertKeyL l = l := by
  unfold convertKeyL
  rw [if_neg (fun hlast => h (List.mem_of_getLast?_eq_some hlast))]
  conv_rhs => rw [← List.map_id l]
  apply List.map_congr_left
  intro c hc
  have h' : c ≠ '_' := fun he => h (he ▸ hc)
  rw [if_neg h']
  rfl

theorem convertKeyL_idem (l : List Char) : convertKeyL (convertKeyL l) = convertKeyL l :=
  convertKeyL_fixed (underscore_not_mem_convertKeyL l)

theorem convertKey_idem (k : String) : convertKey (convertKey k) = convertKey k := by
  unfold convertKey
  exact congrArg String.mk (convertKeyL_idem k.data)

theorem convertStep_norm {acc : List (String × AVal)} {p : String × AVal}
    (hacc : ∀ q ∈ acc, normPair q) (hp : rawOk p) :
    ∀ q ∈ convertStep acc p, normPair q := by
  intro q hq
  unfold convertStep at hq
  split at hq
  · rename_i hklass
    rcases dictInsert_mem q hq with h | h
    · exact hacc q h
    · rw [h]
      show convertKey "class" = "class" ∧ "class" ≠ "klass" ∧ p.2 ≠ AVal.vTrue
      exact ⟨by decide, by decide, hp.1 hklass⟩
  · rename_i hklass
    split at hq
    · rcases dictInsert_mem q hq with h | h
      · exact hacc q h
      · rw [h]
        show convertKey (convertKey p.1) = convertKey p.1 ∧ convertKey p.1 ≠ "klass" ∧
          AVal.vNone ≠ AVal.vTrue
        exact ⟨convertKey_idem p.1, hp.2 hklass, by decide⟩
    · rename_i htrue
      rcases dictInsert_mem q hq with h | h
      · exact hacc q h
      · rw [h]
        show convertKey (convertKey p.1) = convertKey p.1 ∧ convertKey p.1 ≠ "klass" ∧
          p.2 ≠ AVal.vTrue
        exact ⟨convertKey_idem p.1, hp.2 hklass, htrue⟩

theorem foldl_convertStep_norm : ∀ (m acc : List (String × AVal)),
    (∀ p ∈ m, rawOk p) → (∀ q ∈ acc, normPair q) →
    ∀ q ∈ m.foldl convertStep acc, normPair q := by
  intro m
  induction m with
  | nil => intro acc _ hacc q hq; exact hacc q (by simpa using hq)
  | cons p rest ih =>
    intro acc hm hacc q hq
    rw [List.foldl_cons] at hq
    exact ih _ (fun r hr => hm r (List.mem_cons_of_mem _ hr))
      (convertStep_norm hacc (hm p (List.mem_cons_self _ _))) q hq

theorem convertStep_nodup {acc : List (String × AVal)} {p : String × AVal}
    (h : (acc.map Prod.fst).Nodup) : ((convertStep acc p).map Prod.fst).Nodup := by
  unfold convertStep
  split
  · exact dictInsert_nodup h
  · split
    · exact dictInsert_nodup h
    · exact dictInsert_nodup h

theorem foldl_convertStep_nodup : ∀ (m acc : List (String × AVal)),
    (acc.map Prod.fst).Nodup → ((m.foldl convertStep acc).map Prod.fst).Nodup := by
  intro m
  induction m with
  | nil => intro acc h; simpa using h
  | cons p rest ih =>
    intro acc h
    rw [List.foldl_cons]
    exact ih _ (convertStep_nodup h)

theorem metaAdjust_id {tag : Option String} {c : List (String × AVal)}
    (h : ∀ q ∈ c, q.2 ≠ AVal.vTrue) : metaAdjust tag c = c := by
  unfold metaAdjust
  rw [if_neg]
  rintro ⟨-, hany⟩
  obtain ⟨q, hq, he⟩ := List.any_eq_true.mp hany
  exact h q hq (of_decide_eq_true he).2

theorem foldl_convertStep_rebuild : ∀ (l acc : List (String × AVal)),
    (∀ p ∈ l, normPair p) → ((acc ++ l).map Prod.fst).Nodup →
    l.foldl convertStep acc = acc ++ l := by
  intro l
  induction l with
  | nil => intro acc _ _; simp
  | cons p rest ih =>
    intro acc hl hnd
    rw [List.foldl_cons]
    have hp := hl p (List.mem_cons_self _ _)
    have hnotin : p.1 ∉ acc.map Prod.fst := by
      intro hmem
      rw [List.map_append, List.nodup_append] at hnd
      exact hnd.2.2 hmem (by simp)
    have hstep : convertStep acc p = acc ++ [p] := by
      unfold convertStep
      rw [if_neg hp.2.1, if_neg hp.2.2, hp.1, dictInsert_not_mem hnotin]
    rw [hstep]
    have hnd' : (((acc ++ [p]) ++ rest).map Prod.fst).Nodup := by
      rw [List.append_assoc]
      simpa using hnd
    rw [ih _ (fun r hr => hl r (List.mem_cons_of_mem _ hr)) hnd', List.append_assoc]
    rfl

/-- Claim C1 (amended): attribute normalization is idempotent — feeding the
ordered key/value pairs produced by one pass of `_convert_attributes` back in
as the raw mapping yields the same ordered output tokens — provided the
`klass` surrogate key does not carry the boolean-true sentinel and no other
key normalizes to the literal name `klass`. -/
theorem c1_normalization_idempotent (tag : Option String) (m : List (String × AVal))
    (h : ∀ p ∈ m, rawOk p) :
    attrTokens tag (convertPairs tag m) = attrTokens tag m := by
  have hG : ∀ q ∈ m.foldl convertStep [], normPair q :=
    foldl_convertStep_norm m [] h (by simp)
  have hnd : ((m.foldl convertStep []).map Prod.fst).Nodup :=
    foldl_convertStep_nodup m [] (by simp)
  have hmeta1 : convertPairs tag m = m.foldl convertStep [] :=
    metaAdjust_id (fun q hq => (hG q hq).2.2)
  unfold attrTokens
  rw [hmeta1]
  show (metaAdjust tag ((m.foldl convertStep []).foldl convertStep [])).map attrToken = _
  rw [foldl_convertStep_rebuild _ [] hG (by simpa using hnd), List.nil_append,
    metaAdjust_id (fun q hq => (hG q hq).2.2)]

/-- Claim C1 counterexample: for the mapping `{'klass': True}` the first
normalization pass produces the token `class="True"`, while feeding its
output pairs back in produces the bare token `class`. -/
theorem c1_cex :
    attrTokens (some "div") (convertPairs (some "div") [("klass", AVal.vTrue)]) ≠
      attrTokens (some "div") [("klass", AVal.vTrue)] := by decide

/-- Claim C1 witness: the amended idempotence theorem applied to a concrete
mapping exercising an underscore key, a boolean attribute and a `klass` key
with a string value. -/
theorem c1_witness :
    attrTokens (some "div")
        (convertPairs (some "div")
          [("data_id", AVal.vStr "x"), ("disabled", AVal.vTrue), ("klass", AVal.vStr "c")]) =
      attrTokens (some "div")
        [("data_id", AVal.vStr "x"), ("disabled", AVal.vTrue), ("klass", AVal.vStr "c")] :=
  c1_normalization_idempotent (some "div") _ (by decide)

/-! ### The node model and the renderer (`HTMLNode` in `golia.py`) -/

/-- An in-memory HTML node: the stored fields of `HTMLNode` (`tag` after the
trailing-underscore cleanup, `content`, `attr`, `children`, `inline`,
`_force_inline`).  `is_void` and `is_text_node` are derived from `tag` at
construction and never mutated, so they are modelled as functions of `tag`.
The `parent` back-reference is not part of the tree value. -/
inductive Node where
  | mk (tag : Option String) (content : String) (attr : List (String × AVal))
      (children : List Node) (inl : Bool) (finl : Bool)

def Node.tag : Node → Option String
  | .mk t _ _ _ _ _ => t

def Node.content : Node → String
  | .mk _ c _ _ _ _ => c

def Node.attr : Node → List (String × AVal)
  | .mk _ _ a _ _ _ => a

def Node.children : Node → List Node
  | .mk _ _ _ cs _ _ => cs

def Node.inl : Node → Bool
  | .mk _ _ _ _ i _ => i

def Node.finl : Node → Bool
  | .mk _ _ _ _ _ f => f

/-- The tag cleanup of `HTMLNode.__init__`:
`tag[:-1] if tag and tag.endswith('_') else tag`. -/
def stripTag : Option String → Option String
  | none => none
  | some t => some (if t.data.getLast? = some '_' then String.mk t.data.dropLast else t)

/-- The default inline flag of `HTMLNode.__init__`:
`self.tag in self.INLINE_ELEMENTS if self.tag else False` (computed on the
stored, already-stripped tag). -/
def defaultInl (t : Option String) : Bool :=
  match t with
  | some s => decide (s ∈ INLINE_ELEMENTS)
  | none => false

/-- `HTMLNode.__init__(tag, content, attr)`: stores the stripped tag, the
content, the attribute mapping (stored regardless of whether the node is a
text node), no children, the default inline flag, and `_force_inline = False`. -/
def Node.make (tag : Option String) (content : String) (attr : List (String × AVal)) : Node :=
  Node.mk (stripTag tag) content attr [] (defaultInl (stripTag tag)) false

/-- `self.is_void`: the stored tag is in `VOID_ELEMENTS` (`None` is not). -/
def Node.isVoid (n : Node) : Bool :=
  match n.tag with
  | some t => decide (t ∈ VOID_ELEMENTS)
  | none => false

/-- `self.is_text_node`: the stored tag is `None`. -/
def Node.isTextNode (n : Node) : Bool :=
  n.tag = none

def Node.setChildren : Node → List Node → Node
  | .mk t c a _ i f, cs => .mk t c a cs i f

/-- `HTMLNode.add_child(tag, content, attr)` after its type checks pass:
with `tag = None` it constructs a text node from the content alone (the
provided attributes are ignored), otherwise an element node with the given
attributes; the child is appended to `children`.  Returns the updated parent
together with the new child (Python mutates the parent and returns the child). -/
def Node.addChild (n : Node) (tag : Option String) (content : String)
    (attr : List (String × AVal)) : Node × Node :=
  match tag with
  | none =>
    let tn := Node.make none content []
    (n.setChildren (n.children ++ [tn]), tn)
  | some t =>
    let c := Node.make (some t) content attr
    (n.setChildren (n.children ++ [c]), c)

/-- Python `"\t" * indent_level`. -/
def tabs (n : Nat) : String := joinAll (List.replicate n "\t")

/-- The attribute fragment of the opening tag: a leading space plus the
attribute string when the latter is non-empty, nothing otherwise
(`if attr_str: parts.append(f" {attr_str}")`). -/
def attrPart (tag : Option String) (a : List (String × AVal)) : String :=
  if convertAttrString tag a = "" then "" else " " ++ convertAttrString tag a

mutual

/-- `HTMLNode.render(indent_level, parent_inline)`, clause by clause:
text nodes emit indent plus content; element nodes compute
`current_inline = inline or _force_inline or parent_inline`, build the
opening tag with the normalized attribute string, return `... />` for void
tags, and otherwise emit children (inline concatenation at indent 0 when
`current_inline`, newline-joined at `indent_level + 1` wrapped in a leading
newline and a trailing newline plus current indent when not), or the literal
content when there are no children, followed by the closing tag. -/
def Node.render : Node → Nat → Bool → String
  | .mk tag content attr children i f, il, pInl =>
    let indent := tabs il
    match tag with
    | none => indent ++ content
    | some t =>
      let curInl := i || f || pInl
      let openStr := indent ++ "<" ++ t ++ attrPart (some t) attr
      if t ∈ VOID_ELEMENTS then openStr ++ " />"
      else
        let body :=
          if children.isEmpty then (if content = "" then "" else content)
          else if curInl then joinAll (renderList children 0 curInl)
          else "\n" ++ joinSep "\n" (renderList children (il + 1) curInl) ++ "\n" ++ indent
        openStr ++ ">" ++ body ++ "</" ++ t ++ ">"

/-- Renders each node of a list at the same indent level and parent-inline
flag (the generator expressions over `self.children` in `render`). -/
def renderList : List Node → Nat → Bool → List String
  | [], _, _ => []
  | c :: cs, il, pInl => Node.render c il pInl :: renderList cs il pInl

end

theorem renderList_eq_map (cs : List Node) (il : Nat) (b : Bool) :
    renderList cs il b = cs.map (fun c => Node.render c il b) := by
  induction cs with
  | nil => rfl
  | cons c cs ih => simp [renderList, ih]

theorem render_element_inline {t content : String} {attr : List (String × AVal)}
    {cs : List Node} {i f : Bool} {il : Nat} {pInl : Bool}
    (hv : t ∉ VOID_ELEMENTS) (hcs : cs ≠ []) (hinl : (i || f || pInl) = true) :
    Node.render (.mk (some t) content attr cs i f) il pInl =
      tabs il ++ "<" ++ t ++ attrPart (some t) attr ++ ">" ++
        joinAll (cs.map (fun c => Node.render c 0 true)) ++ "</" ++ t ++ ">" := by
  show (if t ∈ VOID_ELEMENTS then _ else _) = _
  rw [if_neg hv]
  have he : cs.isEmpty = false := by
    cases cs with
    | nil => exact absurd rfl hcs
    | cons _ _ => rfl
  rw [he]
  show ((tabs il ++ "<" ++ t ++ attrPart (some t) attr) ++ ">" ++
      (if false = true then _ else
        if (i || f || pInl) = true then joinAll (renderList cs 0 (i || f || pInl))
        else _) ++ "</" ++ t ++ ">") = _
  rw [if_neg (by simp), if_pos hinl, hinl, renderList_eq_map]

theorem render_element_block {t content : String} {attr : List (String × AVal)}
    {cs : List Node} {i f : Bool} {il : Nat} {pInl : Bool}
    (hv : t ∉ VOID_ELEMENTS) (hcs : cs ≠ []) (hinl : (i || f || pInl) = false) :
    Node.render (.mk (some t) content attr cs i f) il pInl =
      tabs il ++ "<" ++ t ++ attrPart (some t) attr ++ ">" ++ "\n" ++
        joinSep "\n" (cs.map (fun c => Node.render c (il + 1) false)) ++ "\n" ++ tabs il ++
        "</" ++ t ++ ">" := by
  show (if t ∈ VOID_ELEMENTS then _ else _) = _
  rw [if_neg hv]
  have he : cs.isEmpty = false := by
    cases cs with
    | nil => exact absurd rfl hcs
    | cons _ _ => rfl
  rw [he]
  show ((tabs il ++ "<" ++ t ++ attrPart (some t) attr) ++ ">" ++
      (if false = true then _ else
        if (i || f || pInl) = true then _
        else "\n" ++ joinSep "\n" (renderList cs (il + 1) (i || f || pInl)) ++ "\n" ++ tabs il) ++
      "</" ++ t ++ ">") = _
  rw [if_neg (by simp), if_neg (by simp [hinl]), hinl, renderList_eq_map]
  simp only [String.append_assoc]

/-! ### Claims C2, C3, C10: void elements, inline propagation, inline defaults -/

theorem inline_not_void : ∀ t ∈ INLINE_ELEMENTS, t ∉ VOID_ELEMENTS := by decide

/-- Claim C2: for every node whose tag is in the fixed void-element set,
`render(indentLevel, parentInline)` emits only the indent, the opening tag
with its normalized attributes, and `" />"` — no children output and no
closing tag, whatever children were appended and whatever the content is. -/
theorem c2_void_render (t content : String) (attr : List (String × AVal)) (cs : List Node)
    (i f : Bool) (il : Nat) (pInl : Bool) (h : t ∈ VOID_ELEMENTS) :
    Node.render (.mk (some t) content attr cs i f) il pInl =
      tabs il ++ "<" ++ t ++ attrPart (some t) attr ++ " />" := by
  show (if t ∈ VOID_ELEMENTS then _ else _) = _
  rw [if_pos h]

/-- Claim C2 witness: a `br` node carrying content and an (erroneously
attached) child still renders as a bare self-closing tag. -/
theorem c2_witness :
    "br" ∈ VOID_ELEMENTS ∧
    Node.render (.mk (some "br") "boom" [] [.mk none "child" [] [] false false] false false)
        2 false =
      tabs 2 ++ "<" ++ "br" ++ attrPart (some "br") [] ++ " />" :=
  ⟨by decide,
   c2_void_render "br" "boom" [] [.mk none "child" [] [] false false] false false 2 false
     (by decide)⟩

/-- Claim C3: inline-ness is inherited downward but not sideways.  Under a
non-inline parent, a forced-inline child concatenates each of its children's
`render(0, true)` with no separators, while its sibling (no inline flags)
renders in normal block mode (children newline-joined one level deeper,
wrapped in a leading newline and a trailing newline plus current indent),
unaffected; and any non-void element rendered with `parentInline = true`
suppresses inter-child newlines regardless of its own flags. -/
theorem c3_inline_inheritance (t1 t2 tp c1v c2v : String) (a1 a2 : List (String × AVal))
    (cs1 cs2 : List Node) (il : Nat)
    (h1 : t1 ∉ VOID_ELEMENTS) (h2 : t2 ∉ VOID_ELEMENTS) (hp : tp ∉ VOID_ELEMENTS)
    (hc1 : cs1 ≠ []) (hc2 : cs2 ≠ []) :
    (Node.render
        (.mk (some tp) "" []
          [.mk (some t1) c1v a1 cs1 false true, .mk (some t2) c2v a2 cs2 false false]
          false false) il false =
      tabs il ++ "<" ++ tp ++ attrPart (some tp) [] ++ ">" ++ "\n" ++
        Node.render (.mk (some t1) c1v a1 cs1 false true) (il + 1) false ++ "\n" ++
        Node.render (.mk (some t2) c2v a2 cs2 false false) (il + 1) false ++ "\n" ++
        tabs il ++ "</" ++ tp ++ ">") ∧
    (Node.render (.mk (some t1) c1v a1 cs1 false true) (il + 1) false =
      tabs (il + 1) ++ "<" ++ t1 ++ attrPart (some t1) a1 ++ ">" ++
        joinAll (cs1.map (fun c => Node.render c 0 true)) ++ "</" ++ t1 ++ ">") ∧
    (Node.render (.mk (some t2) c2v a2 cs2 false false) (il + 1) false =
      tabs (il + 1) ++ "<" ++ t2 ++ attrPart (some t2) a2 ++ ">" ++ "\n" ++
        joinSep "\n" (cs2.map (fun c => Node.render c (il + 2) false)) ++ "\n" ++
        tabs (il + 1) ++ "</" ++ t2 ++ ">") ∧
    (∀ (t co : String) (a : List (String × AVal)) (cs : List Node) (i f : Bool) (il' : Nat),
      t ∉ VOID_ELEMENTS → cs ≠ [] →
      Node.render (.mk (some t) co a cs i f) il' true =
        tabs il' ++ "<" ++ t ++ attrPart (some t) a ++ ">" ++
          joinAll (cs.map (fun c => Node.render c 0 true)) ++ "</" ++ t ++ ">") := by
  refine ⟨?_, ?_, ?_, ?_⟩
  · rw [@render_element_block tp "" []
      [Node.mk (some t1) c1v a1 cs1 false true, Node.mk (some t2) c2v a2 cs2 false false]
      false false il false hp (by simp) rfl]
    simp only [List.map_cons, List.map_nil, joinSep, String.append_assoc]
  · exact render_element_inline h1 hc1 rfl
  · exact render_element_block h2 hc2 rfl
  · intro t co a cs i f il' ht hcs
    exact render_element_inline ht hcs (by simp)

/-- Claim C3 witness: concrete instantiation with a forced-inline `b` node
and a plain `p` sibling under a `div`, plus the downward-inheritance clause
instantiated on a `span` rendered with `parentInline = true`. -/
theorem c3_witness :
    (Node.render
        (.mk (some "div") "" []
          [.mk (some "b") "" [] [.mk none "x" [] [] false false] false true,
           .mk (some "p") "" [] [.mk none "y" [] [] false false] false false]
          false false) 0 false =
      tabs 0 ++ "<" ++ "div" ++ attrPart (some "div") [] ++ ">" ++ "\n" ++
        Node.render (.mk (some "b") "" [] [.mk none "x" [] [] false false] false true) 1 false ++
        "\n" ++
        Node.render (.mk (some "p") "" [] [.mk none "y" [] [] false false] false false) 1 false ++
        "\n" ++ tabs 0 ++ "</" ++ "div" ++ ">") ∧
    (Node.render (.mk (some "b") "" [] [.mk none "x" [] [] false false] false true) 1 false =
      tabs 1 ++ "<" ++ "b" ++ attrPart (some "b") [] ++ ">" ++
        joinAll ([Node.mk none "x" [] [] false false].map (fun c => Node.render c 0 true)) ++
        "</" ++ "b" ++ ">") ∧
    (Node.render (.mk (some "p") "" [] [.mk none "y" [] [] false false] false false) 1 false =
      tabs 1 ++ "<" ++ "p" ++ attrPart (some "p") [] ++ ">" ++ "\n" ++
        joinSep "\n"
          ([Node.mk none "y" [] [] false false].map (fun c => Node.render c 2 false)) ++
        "\n" ++ tabs 1 ++ "</" ++ "p" ++ ">") ∧
    (Node.render (.mk (some "span") "" [] [.mk none "z" [] [] false false] false false) 3 true =
      tabs 3 ++ "<" ++ "span" ++ attrPart (some "span") [] ++ ">" ++
        joinAll ([Node.mk none "z" [] [] false false].map (fun c => Node.render c 0 true)) ++
        "</" ++ "span" ++ ">") := by
  have h := c3_inline_inheritance "b" "p" "div" "" "" [] []
    [.mk none "x" [] [] false false] [.mk none "y" [] [] false false] 0
    (by decide) (by decide) (by decide) (by simp) (by simp)
  exact ⟨h.1, h.2.1, h.2.2.1,
    h.2.2.2 "span" "" [] [.mk none "z" [] [] false false] false false 3 (by decide) (by simp)⟩

/-- Claim C10: tags in the fixed inline set get the inline flag by default at
construction, and such a node (inline flag set, no `forceInline`, no
`parentInline`) renders its children concatenated at indent 0; a constructed
node whose stored tag is outside the set, or a text node, has inline `false`
by default. -/
theorem c10_inline_defaults (t content : String) (a : List (String × AVal)) (cs : List Node)
    (il : Nat) :
    (t ∈ INLINE_ELEMENTS → (Node.make (some t) content a).inl = true) ∧
    (t ∈ INLINE_ELEMENTS → cs ≠ [] →
      Node.render (.mk (some t) content a cs true false) il false =
        tabs il ++ "<" ++ t ++ attrPart (some t) a ++ ">" ++
          joinAll (cs.map (fun c => Node.render c 0 true)) ++ "</" ++ t ++ ">") ∧
    (∀ t', (Node.make (some t) content a).tag = some t' → t' ∉ INLINE_ELEMENTS →
      (Node.make (some t) content a).inl = false) ∧
    (Node.make none content a).inl = false := by
  refine ⟨?_, ?_, ?_, rfl⟩
  · intro h
    have hs := (show ∀ x ∈ INLINE_ELEMENTS, stripTag (some x) = some x by decide) t h
    show defaultInl (stripTag (some t)) = true
    rw [hs]
    exact decide_eq_true h
  · intro h hcs
    exact render_element_inline (inline_not_void t h) hcs rfl
  · intro t' htag hnot
    have htag' : stripTag (some t) = some t' := htag
    show defaultInl (stripTag (some t)) = false
    rw [htag']
    exact decide_eq_false hnot

/-- Claim C10 witness: a `span` is inline by default and renders its children
concatenated; a `div` and a text node default to inline `false`. -/
theorem c10_witness :
    (Node.make (some "span") "x" []).inl = true ∧
    (Node.render (.mk (some "span") "x" [] [.mk none "z" [] [] false false] true false) 1 false =
      tabs 1 ++ "<" ++ "span" ++ attrPart (some "span") [] ++ ">" ++
        joinAll ([Node.mk none "z" [] [] false false].map (fun c => Node.render c 0 true)) ++
        "</" ++ "span" ++ ">") ∧
    (Node.make (some "div") "x" []).inl = false ∧
    (Node.make none "x" []).inl = false := by
  have ha := c10_inline_defaults "span" "x" [] [.mk none "z" [] [] false false] 1
  have hb := c10_inline_defaults "div" "x" [] [] 0
  exact ⟨ha.1 (by decide), ha.2.1 (by decide) (by simp),
    hb.2.2.1 "div" rfl (by decide), hb.2.2.2⟩

/-! ### Claims C7 and C8: `add_child` type checking and text nodes -/

/-- The Golia error taxonomy of the spec (`InvalidContentType` /
`InvalidAttributeType` are the two distinct `TypeError` raise sites of
`HTMLNode.add_child`; `NoActiveScope` is the `RuntimeError` of
`HTML.end_nested_element`). -/
inductive GErr where
  | invalidContentType
  | invalidAttributeType
  | noActiveScope
deriving DecidableEq

/-- Model of the dynamically typed Python values that can reach
`add_child`'s type checks: strings, integers, floats (kept abstract),
booleans, `None`, dictionaries, and lists. -/
inductive PyVal where
  | pStr (s : String)
  | pInt (n : Int)
  | pFloat (id : Nat)
  | pBool (b : Bool)
  | pNone
  | pDict (entries : List (PyVal × PyVal))
  | pList (xs : List PyVal)

/-- The content check of `add_child`:
`isinstance(content, (str, int, float, bool))`. -/
def contentConvertible : PyVal → Bool
  | .pStr _ => true
  | .pInt _ => true
  | .pFloat _ => true
  | .pBool _ => true
  | _ => false

/-- The attribute check of `add_child`: `isinstance(attr, dict)` — the key
types are not inspected. -/
def PyVal.isDict : PyVal → Bool
  | .pDict _ => true
  | _ => false

/-- A dictionary all of whose keys are strings (the spec's notion of a
string-keyed mapping; the code never checks this). -/
def stringKeyed : PyVal → Bool
  | .pDict es => es.all (fun e => match e.1 with | .pStr _ => true | _ => false)
  | _ => false

/-- One recorded `add_child` call: the constructed child's tag, content and
the attribute value actually stored (`None` tags ignore the passed
attributes, as in the text-node branch of `add_child`). -/
structure PyChild where
  tag : Option String
  content : PyVal
  attr : Option PyVal

/-- `HTMLNode.add_child` at the dynamic-typing level: the content check runs
first and raises `InvalidContentType` (`TypeError`), then the attribute check
raises `InvalidAttributeType` (`TypeError`); only then is the child appended
to the parent's children. -/
def addChildPy (children : List PyChild) (tag : Option String) (content : PyVal)
    (attr : Option PyVal) : Except GErr (List PyChild) :=
  if contentConvertible content = false then .error .invalidContentType
  else
    match attr with
    | some a =>
      if a.isDict = false then .error .invalidAttributeType
      else .ok (children ++ [⟨tag, content, if tag.isNone then none else some a⟩])
    | none => .ok (children ++ [⟨tag, content, none⟩])

/-- The parent's children list after an `add_child` call: Python raises
before any mutation, so a raising call leaves the list unchanged. -/
def addChildPyState (children : List PyChild) (tag : Option String) (content : PyVal)
    (attr : Option PyVal) : List PyChild :=
  match addChildPy children tag content attr with
  | .ok cs => cs
  | .error _ => children

/-- Claim C7 (amended): `add_child` fails with `InvalidContentType` whenever
the content is not one of the accepted text-convertible types
(str/int/float/bool), fails with `InvalidAttributeType` whenever attributes
are provided and are not a mapping (key types are not checked), and every
failing call leaves the children list unchanged. -/
theorem c7_addchild_type_errors (children : List PyChild) (tag : Option String)
    (content : PyVal) (attr : Option PyVal) :
    (contentConvertible content = false →
      addChildPy children tag content attr = .error .invalidContentType ∧
      addChildPyState children tag content attr = children) ∧
    (∀ a, contentConvertible content = true → attr = some a → a.isDict = false →
      addChildPy children tag content attr = .error .invalidAttributeType ∧
      addChildPyState children tag content attr = children) ∧
    (∀ e, addChildPy children tag content attr = .error e →
      addChildPyState children tag content attr = children) := by
  refine ⟨?_, ?_, ?_⟩
  · intro h
    have h1 : addChildPy children tag content attr = .error .invalidContentType := by
      unfold addChildPy
      rw [if_pos h]
    exact ⟨h1, by unfold addChildPyState; rw [h1]⟩
  · intro a hc ha hd
    subst ha
    have h1 : addChildPy children tag content (some a) = .error .invalidAttributeType := by
      unfold addChildPy
      rw [if_neg (by simp [hc])]
      show (if a.isDict = false then _ else _) = _
      rw [if_pos hd]
    exact ⟨h1, by unfold addChildPyState; rw [h1]⟩
  · intro e he
    unfold addChildPyState
    rw [he]

/-- Claim C7 counterexample: a dictionary with a non-string key is "provided
and not a string-keyed mapping", yet `add_child` accepts it and appends the
child instead of raising `InvalidAttributeType`. -/
theorem c7_cex :
    stringKeyed (PyVal.pDict [(PyVal.pInt 1, PyVal.pStr "x")]) = false ∧
    PyVal.isDict (PyVal.pDict [(PyVal.pInt 1, PyVal.pStr "x")]) = true ∧
    addChildPy [] (some "div") (PyVal.pStr "")
        (some (PyVal.pDict [(PyVal.pInt 1, PyVal.pStr "x")])) =
      .ok [⟨some "div", PyVal.pStr "", some (PyVal.pDict [(PyVal.pInt 1, PyVal.pStr "x")])⟩] :=
  ⟨rfl, rfl, rfl⟩

/-- Claim C7 witness: a `None` content raises `InvalidContentType`, a list
passed as attributes raises `InvalidAttributeType`, and both leave the
children list unchanged. -/
theorem c7_witness :
    (addChildPy [] (some "p") PyVal.pNone none = .error .invalidContentType ∧
      addChildPyState [] (some "p") PyVal.pNone none = []) ∧
    (addChildPy [] (some "p") (PyVal.pStr "hi") (some (PyVal.pList [])) =
        .error .invalidAttributeType ∧
      addChildPyState [] (some "p") (PyVal.pStr "hi") (some (PyVal.pList [])) = []) :=
  ⟨(c7_addchild_type_errors [] (some "p") .pNone none).1 rfl,
   (c7_addchild_type_errors [] (some "p") (.pStr "hi") (some (.pList []))).2.1
     (.pList []) rfl rfl rfl⟩

/-- Claim C8 (amended): `add_child` with an absent tag constructs and appends
a text node that has no children and no attributes (the provided attributes
are ignored) and reports `isTextNode`; the never-has-attributes invariant is
not guaranteed by direct construction (see the counterexample). -/
theorem c8_addchild_text (n : Node) (content : String) (attr : List (String × AVal)) :
    (n.addChild none content attr).2 = Node.mk none content [] [] false false ∧
    (n.addChild none content attr).2.isTextNode = true ∧
    (n.addChild none content attr).2.children = [] ∧
    (n.addChild none content attr).2.attr = [] ∧
    (n.addChild none content attr).1.children =
      n.children ++ [(n.addChild none content attr).2] := by
  refine ⟨rfl, rfl, rfl, rfl, ?_⟩
  cases n
  rfl

/-- Claim C8 counterexample: direct construction (`HTMLNode.__init__`) with
an absent tag stores the provided attributes, so a text node with attributes
exists — the "never has attributes" invariant does not hold at construction. -/
theorem c8_cex :
    (Node.make none "x" [("id", AVal.vStr "a")]).isTextNode = true ∧
    (Node.make none "x" [("id", AVal.vStr "a")]).attr ≠ [] :=
  ⟨rfl, by decide⟩

/-! ### The transpiler (`_parse_section` and `_convert_attrs` in `derender.py`)

The tokenizer models the single scan of
`re.finditer(r'<(/?)(\w+)(.*?)(/?)>|([^<]+)', content, re.DOTALL)`:
at a `<` it tries the tag alternative (optional `/`, then a non-empty run of
word characters, then — lazily, with dot matching newlines — everything up to
the first `>`, whose last character may be the self-closing `/`); if that
fails the scan moves on one character, where the text alternative matches a
maximal run of non-`<` characters.  `\w` and `str.strip` whitespace are
modelled at their ASCII meaning.  The recursions are driven by a fuel equal
to the input length, which bounds the number of matches (every match or
failure consumes at least one character). -/

/-- Token kinds produced by the tokenizing regex: an opening (possibly
self-closing) tag with its raw attribute text, a closing tag, or a text run. -/
inductive Tok where
  | tOpen (name attrs : String) (selfClose : Bool)
  | tClose (name : String)
  | tText (s : String)
deriving DecidableEq

/-- State of the `_parse_section` loop: the current `indent`, the open-tag
`stack` (top first), and the emitted statement `lines`. -/
structure ScanState where
  ind : Nat
  stack : List String
  lines : List String
deriving DecidableEq

/-- Python regex `\w` at its ASCII meaning. -/
def isWordChar (c : Char) : Bool := c.isAlphanum || c = '_'

/-- Python `str.strip` whitespace at its ASCII meaning. -/
def pyWhitespace (c : Char) : Bool :=
  c = ' ' || c = '\t' || c = '\n' || c = '\r' || c = '\x0b' || c = '\x0c'

/-- Python `text.strip()`. -/
def pyStrip (s : String) : String :=
  String.mk (((s.data.dropWhile pyWhitespace).reverse.dropWhile pyWhitespace).reverse)

/-- Python `text.replace('\n', ' ')` (characterwise: each newline becomes one
space). -/
def nlToSpace (s : String) : String :=
  String.mk (s.data.map (fun c => if c = '\n' then ' ' else c))

/-- `text.strip().replace('\n', ' ')` — the text cleanup of `_parse_section`. -/
def cleanText (s : String) : String := nlToSpace (pyStrip s)

/-- Python `"    " * indent`. -/
def spaces4 (n : Nat) : String := joinAll (List.replicate n "    ")

/-- Either-quote character class `["\']` of the attribute regex in
`_convert_attrs` (character 39 is the apostrophe). -/
def isQuote (c : Char) : Bool := c = '"' || c.toNat = 39

/-- One attempt of `re.findall(r'(\w+)=["\'](.*?)["\']', attrs)` at the start
of `l`: a maximal non-empty word run, `=`, a quote, then the shortest value
up to the next quote character of either kind.  On success returns the name,
the value, and the number of characters consumed. -/
def pairAt (l : List Char) : Option (String × String × Nat) :=
  let name := l.takeWhile isWordChar
  if name.isEmpty then none
  else
    match l.drop name.length with
    | '=' :: r2 =>
      match r2 with
      | q :: r3 =>
        if isQuote q then
          let value := r3.takeWhile (fun x => !isQuote x)
          if value.length = r3.length then none
          else some (String.mk name, String.mk value, name.length + value.length + 3)
        else none
      | [] => none
    | _ => none

/-- The left-to-right non-overlapping scan of `re.findall` over the attribute
text: a failed attempt advances one character, a successful one continues
after the closing quote. -/
def findPairsF : Nat → List Char → List (String × String)
  | 0, _ => []
  | _ + 1, [] => []
  | fuel + 1, c :: rest =>
    match pairAt (c :: rest) with
    | some (n, v, k) => (n, v) :: findPairsF fuel ((c :: rest).drop k)
    | none => findPairsF fuel rest

def findPairs (l : List Char) : List (String × String) := findPairsF l.length l

/-- The reserved-word rename table `attr_map` of `_convert_attrs`. -/
def pyAttrName (n : String) : String :=
  if n = "class" then "klass"
  else if n = "for" then "for_"
  else if n = "async" then "async_"
  else if n = "type" then "type_"
  else n

/-- `_convert_attrs(attrs)`: extract the quoted pairs, rename reserved-word
keys, collapse duplicates last-one-wins through an insertion-ordered dict,
and render as a comma-joined `key="value"` argument list. -/
def convertAttrs (attrs : String) : String :=
  joinSep ", "
    (((findPairs attrs.data).foldl (fun acc p => dictInsert acc (pyAttrName p.1) p.2) []).map
      (fun p => p.1 ++ "=\"" ++ p.2 ++ "\""))

/-- Drops the optional `/` of the closing-tag group `(/?)` after `<`. -/
def afterSlash : List Char → List Char
  | '/' :: r => r
  | r => r

/-- Whether the `(/?)` group right after `<` matched (a closing tag). -/
def isCloseTok : List Char → Bool
  | '/' :: _ => true
  | _ => false

/-- The tag body match after `<` and the optional `/`: the name (`\w+`), the
raw attribute text (`(.*?)` up to the first `>`, minus a final `/` which is
the self-closing marker), the self-closing flag, and the characters consumed
including the `>`. -/
def tagSplit (l : List Char) : Option (String × String × Bool × Nat) :=
  let name := l.takeWhile isWordChar
  if name.isEmpty then none
  else
    let rest2 := l.drop name.length
    let before := rest2.takeWhile (fun c => !(c = '>'))
    if before.length = rest2.length then none
    else
      let consumed := name.length + before.length + 1
      if before.getLast? = some '/' then
        some (String.mk name, String.mk before.dropLast, true, consumed)
      else
        some (String.mk name, String.mk before, false, consumed)

def tokenizeF : Nat → List Char → List Tok
  | 0, _ => []
  | _ + 1, [] => []
  | fuel + 1, c :: rest =>
    if c = '<' then
      match tagSplit (afterSlash rest) with
      | none => tokenizeF fuel rest
      | some (name, attrs, sc, k) =>
        (if isCloseTok rest then Tok.tClose name else Tok.tOpen name attrs sc) ::
          tokenizeF fuel ((afterSlash rest).drop k)
    else
      let run := (c :: rest).takeWhile (fun x => !(x = '<'))
      Tok.tText (String.mk run) :: tokenizeF fuel ((c :: rest).drop run.length)

def tokenize (l : List Char) : List Tok := tokenizeF l.length l

/-- The body of the `for match in pattern.finditer(content)` loop of
`_parse_section`: text tokens emit a `text` statement when non-empty after
cleanup; closing tags pop the stack and decrement the indent (floor 1) only
on a match with the stack top, and are otherwise ignored; opening tags always
emit an element statement at the current indent and, when not marked
self-closing in the source, push the name and increment the indent. -/
def scanStep (sec : String) (st : ScanState) (tok : Tok) : ScanState :=
  match tok with
  | .tText s =>
    let c := cleanText s
    if c = "" then st
    else ⟨st.ind, st.stack,
      st.lines ++ [spaces4 st.ind ++ "com." ++ sec ++ ".text(\"" ++ c ++ "\")"]⟩
  | .tClose name =>
    match st.stack with
    | top :: rest =>
      if top = name then ⟨max 1 (st.ind - 1), rest, st.lines⟩ else st
    | [] => st
  | .tOpen name attrs sc =>
    let st1 : ScanState := ⟨st.ind, st.stack,
      st.lines ++ [spaces4 st.ind ++ "com." ++ sec ++ "." ++ name ++ "(" ++ convertAttrs attrs ++ ")"]⟩
    if sc then st1 else ⟨st1.ind + 1, name :: st1.stack, st1.lines⟩

/-- `_parse_section(content, section)`: scan the tokens left to right from
`indent = 1` and an empty stack, collecting the emitted lines. -/
def parseSection (content : String) (sec : String) : List String :=
  ((tokenize content.data).foldl (scanStep sec) ⟨1, [], []⟩).lines

/-! ### Claims C4, C5, C6: the section scan -/

/-- Claim C4: every opening tag not marked self-closing in the source emits
one element-statement line at the current indent, then pushes the tag name
and increments the indent — no void-element table is consulted, so `<br>`
(no trailing slash) tokenizes as a non-self-closing opening tag, is pushed
onto the stack, and following sibling markup lands one indent level deeper. -/
theorem c4_open_tag_scan :
    (∀ (sec name attrs : String) (st : ScanState),
      scanStep sec st (.tOpen name attrs false) =
        ⟨st.ind + 1, name :: st.stack,
         st.lines ++
           [spaces4 st.ind ++ "com." ++ sec ++ "." ++ name ++ "(" ++ convertAttrs attrs ++ ")"]⟩) ∧
    tokenize "<br>".data = [Tok.tOpen "br" "" false] ∧
    parseSection "<br><p>x</p>" "body" =
      ["    com.body.br()", "        com.body.p()", "            com.body.text(\"x\")"] := by
  refine ⟨?_, by decide, by decide⟩
  intro sec name attrs st
  obtain ⟨ind, stack, lines⟩ := st
  rfl

/-- Claim C5: a closing tag whose name differs from the stack top (or that
arrives on an empty stack) leaves the whole scan state unchanged — no
exception, no line, no stack or indent change; a matching closing tag pops
the stack and decrements the indent with a floor of 1, emitting nothing. -/
theorem c5_close_scan (sec name : String) (st : ScanState) :
    (st.stack.head? ≠ some name → scanStep sec st (.tClose name) = st) ∧
    (st.stack.head? = some name →
      scanStep sec st (.tClose name) = ⟨max 1 (st.ind - 1), st.stack.tail, st.lines⟩) := by
  obtain ⟨ind, stack, lines⟩ := st
  constructor
  · intro h
    cases stack with
    | nil => rfl
    | cons top rest =>
      have htop : top ≠ name := by
        intro he
        exact h (by simp [he])
      show (if top = name then _ else _) = _
      rw [if_neg htop]
  · intro h
    cases stack with
    | nil => simp at h
    | cons top rest =>
      have htop : top = name := by simpa using h
      show (if top = name then _ else _) = _
      rw [if_pos htop]
      rfl

/-- Claim C5 witness: a stray `</div>` on an empty stack and a mismatched
`</p>` over a `["div"]` stack change nothing; a matching `</div>` pops and
decrements down to the floor of 1. -/
theorem c5_witness :
    scanStep "body" ⟨1, [], []⟩ (.tClose "div") = ⟨1, [], []⟩ ∧
    scanStep "body" ⟨2, ["div"], []⟩ (.tClose "p") = ⟨2, ["div"], []⟩ ∧
    scanStep "body" ⟨1, ["div"], []⟩ (.tClose "div") = ⟨1, [], []⟩ := by
  refine ⟨(c5_close_scan "body" "div" ⟨1, [], []⟩).1 (by decide),
    (c5_close_scan "body" "p" ⟨2, ["div"], []⟩).1 (by decide), ?_⟩
  exact ((c5_close_scan "body" "div" ⟨1, ["div"], []⟩).2 (by decide)).trans (by decide)

/-- Claim C6: a text token is trimmed and each internal newline becomes a
single space; a token that is whitespace-only after trimming emits nothing
and changes nothing, a non-empty one emits exactly one text-statement line at
the current indent, leaving indent and stack untouched. -/
theorem c6_text_scan (sec s : String) (st : ScanState) :
    (cleanText s = "" → scanStep sec st (.tText s) = st) ∧
    (cleanText s ≠ "" →
      scanStep sec st (.tText s) =
        ⟨st.ind, st.stack,
         st.lines ++ [spaces4 st.ind ++ "com." ++ sec ++ ".text(\"" ++ cleanText s ++ "\")"]⟩) := by
  constructor
  · intro h
    show (if cleanText s = "" then st else _) = st
    rw [if_pos h]
  · intro h
    show (if cleanText s = "" then st else _) = _
    rw [if_neg h]

/-- Claim C6 witness: the whitespace-only run `" \n "` is dropped silently,
while `" a\n\nb "` (consecutive newlines) is trimmed, its two newlines each
become one space, and one text line is emitted at indent 1. -/
theorem c6_witness :
    scanStep "body" ⟨1, [], []⟩ (.tText " \n ") = ⟨1, [], []⟩ ∧
    scanStep "body" ⟨1, [], []⟩ (.tText " a\n\nb ") =
      ⟨1, [], ["    com.body.text(\"a  b\")"]⟩ := by
  refine ⟨(c6_text_scan "body" " \n " ⟨1, [], []⟩).1 (by decide), ?_⟩
  exact ((c6_text_scan "body" " a\n\nb " ⟨1, [], []⟩).2 (by decide)).trans (by decide)

/-! ### Claim C9: nested-scope closing (`HTML.end_nested_element`)

The document's `current_node` pointer is modelled by its position:
`none` is Python `None`, `some []` is `body_root` itself, and
`some (t :: p)` is an element node whose parent chain (towards `body_root`)
is `p`.  `start_nested_element` attaches a child to `current_node or
body_root` and points at it; `end_nested_element` raises on `None` and
otherwise moves to the parent — the parent of a direct child of `body_root`
is `body_root` (`some []`), and the parent of `body_root` is Python `None`. -/

/-- One builder call in a scoping sequence. -/
inductive ScopeCall where
  | sStart (t : String)
  | sEnd

/-- `HTML.start_nested_element`: `parent = self.current_node or
self.body_root; self.current_node = parent.add_child(tag, ...)`. -/
def startNested (cur : Option (List String)) (t : String) : Option (List String) :=
  match cur with
  | none => some [t]
  | some p => some (t :: p)

/-- `HTML.end_nested_element`: raises `NoActiveScope` (`RuntimeError`) when
`current_node is None`, otherwise `current_node = current_node.parent`. -/
def endNested (cur : Option (List String)) : Except GErr (Option (List String)) :=
  match cur with
  | none => .error .noActiveScope
  | some [] => .ok none
  | some (_ :: p) => .ok (some p)

/-- Runs a sequence of scope calls on a fresh document
(`current_node = None`), propagating the first raised error. -/
def runScope (calls : List ScopeCall) : Except GErr (Option (List String)) :=
  calls.foldlM
    (fun cur c =>
      match c with
      | .sStart t => .ok (startNested cur t)
      | .sEnd => endNested cur)
    none

/-- Claim C9, evaluated at the failing input: after `start('div'); end()` the
pointer is `body_root`, not `None`, so the second `end()` — one close more
than was opened — silently moves the pointer to `None` instead of raising
`NoActiveScope`; only a third `end()` raises. -/
theorem c9_scope_eval :
    runScope [.sStart "div", .sEnd] = .ok (some []) ∧
    runScope [.sStart "div", .sEnd, .sEnd] = .ok none ∧
    runScope [.sStart "div", .sEnd, .sEnd, .sEnd] = .error .noActiveScope ∧
    runScope [.sEnd] = .error .noActiveScope :=
  ⟨rfl, rfl, rfl, rfl⟩
